import Mathlib

/-!
Verification of the WOA CSV parsing and gridding component (`read_woa_csv` in
`woatools/src/woatools/woa.py`).

The embedding is a shallow one: a CSV file on disk is modelled as its name
together with the list of its lines (without newline characters, as produced
by iterating over the file); a value parsed by Python `float()` is modelled
by `PFloat` — an exact rational, or the NaN that `float("nan")` returns —
with equality (`pyEq`) and order (`pyLt`) following Python float semantics,
under which NaN is equal to nothing and comparable to nothing, including
itself; numpy's NaN missing sentinel in a never-written grid cell is
modelled as `none` in `Option PFloat` (a cell into which a parsed NaN was
explicitly written is `some PFloat.nan`, a distinction the array itself
does not make but on which no statement below depends); and the fatal
Python exceptions are modelled as the error taxonomy named by the
specification (`InvalidSelector`, `NoMatchingFiles`, `FileCountMismatch`,
`MalformedHeader`).  A numpy store `data[i,j,k,t] = v` whose `IndexError`
is caught and skipped is modelled by an update that leaves the grid
unchanged when an index is out of range.
-/

/-- A CSV file as `read_woa_csv` sees it: its path/name (used only for the
regular-expression filter and for sorting) and its content as a list of
lines. -/
structure WFile where
  name : String
  lines : List String
deriving DecidableEq

/-- The fatal-error taxonomy of the specification, plus the unreachable
`Unexpected number of CSV files` branch of the source (lines 403-404). -/
inductive WoaError where
  | InvalidSelector
  | NoMatchingFiles
  | FileCountMismatch
  | MalformedHeader
  | UnexpectedFileCount
deriving DecidableEq

/-- The three time-resolution classes selected by `time_code`
(source lines 337-348). -/
inductive TimePat where
  | annual
  | monthly
  | seasonal
deriving DecidableEq

/-- A parsed Python float as produced by `float()` on WOA tokens: an exact
rational (decimal literals are modelled exactly; parsing is injective and
order-preserving on them, so equality, deduplication and sorting of parsed
values coincide with the IEEE behaviour) or the NaN that `float("nan")`
returns.  NaN must be modelled because its semantics is visible to this
program: NaN compares unequal to everything including itself, which defeats
the pass-1 set deduplication, the coordinate sort, and the pass-2
dictionary lookup.  The remaining `float()` forms that are not modelled
(`inf`/`infinity`, exponents, underscores) all denote totally ordered,
reflexively equal values, so omitting them only shrinks — in the pipeline
and in every claim statement alike, which quantify over the same parser —
the set of tokens that parse; it cannot hide behaviour absent from the
modelled forms. -/
inductive PFloat where
  | num : ℚ → PFloat
  | nan : PFloat
deriving DecidableEq

instance (n : Nat) : OfNat PFloat n :=
  ⟨PFloat.num (n : ℚ)⟩

instance : OfScientific PFloat :=
  ⟨fun m e b => PFloat.num (OfScientific.ofScientific m e b)⟩

/-- Python float equality (`==`): true exactly on equal numeric values; a
comparison involving NaN is always false, NaN == NaN included. -/
def pyEq : PFloat → PFloat → Bool
  | .num a, .num b => decide (a = b)
  | _, _ => false

/-- Python float strict order (`<`): a comparison involving NaN is always
false. -/
def pyLt : PFloat → PFloat → Bool
  | .num a, .num b => decide (a < b)
  | _, _ => false

/-- Negation of a parsed float (`float("-nan")` is NaN). -/
def pfNeg : PFloat → PFloat
  | .num q => .num (-q)
  | .nan => .nan

/-- The dense 4-D output array of `read_woa_csv`, indexed
(lat, lon, depth, time); `none` is the NaN missing sentinel of a cell that
was never written. -/
abbrev Grid4 := List (List (List (List (Option PFloat))))

/-- The coordinate dictionary returned by `read_woa_csv`
(source lines 436-442). -/
structure Coords where
  lat : List PFloat
  lon : List PFloat
  depth : List PFloat
  time : List ℚ
deriving DecidableEq

/-! ### Character-list utilities

Python's string operations (`strip`, `split`, `float`) are modelled directly
on `List Char` by structural recursion so that every definition evaluates in
the kernel. -/

/-- `nth l n` is `l[n]` as an `Option` (Python indexing guarded by
`IndexError`). -/
def nth {α : Type _} : List α → Nat → Option α
  | [], _ => none
  | a :: _, 0 => some a
  | _ :: l, n + 1 => nth l n

/-- Whether `p` is a prefix of `l` (used to model substring search). -/
def prefixOf : List Char → List Char → Bool
  | [], _ => true
  | _ :: _, [] => false
  | a :: as, b :: bs => a == b && prefixOf as bs

/-- Python `str.strip()`: remove leading and trailing whitespace. -/
def trimChars (l : List Char) : List Char :=
  ((l.dropWhile Char.isWhitespace).reverse.dropWhile Char.isWhitespace).reverse

/-- Python `str.split(',')` on a character list. -/
def splitComma : List Char → List (List Char)
  | [] => [[]]
  | c :: cs =>
    if c = ',' then [] :: splitComma cs
    else
      match splitComma cs with
      | [] => [[c]]
      | r :: rs => (c :: r) :: rs

/-- The suffix of `l` after the first occurrence of `sep`, when `sep` occurs
in `l` (first half of Python `l.split(sep)[1]`). -/
def afterFirst (sep : List Char) : List Char → Option (List Char)
  | [] => none
  | c :: cs =>
    if prefixOf sep (c :: cs) then some (List.drop sep.length (c :: cs))
    else afterFirst sep cs

/-- The prefix of `l` before the next occurrence of `sep` (second half of
Python `l.split(sep)[1]`: the text between the first and second occurrence). -/
def beforeNext (sep : List Char) : List Char → List Char
  | [] => []
  | c :: cs => if prefixOf sep (c :: cs) then [] else c :: beforeNext sep cs

/-- Numeric value of a digit string. -/
def digitsToNat (l : List Char) : Nat :=
  l.foldl (fun a c => 10 * a + (c.toNat - 48)) 0

/-- Unsigned part of Python `float()` on a plain decimal literal:
digits with an optional single decimal point, at least one digit present. -/
def parseUnsigned (l : List Char) : Option ℚ :=
  let ip := l.takeWhile Char.isDigit
  let rest := l.dropWhile Char.isDigit
  match rest with
  | [] => if ip.isEmpty then none else some ((digitsToNat ip : ℚ))
  | '.' :: frac =>
    if frac.all Char.isDigit && !(ip.isEmpty && frac.isEmpty) then
      some ((digitsToNat ip : ℚ) + (digitsToNat frac : ℚ) / (10 ^ frac.length : ℚ))
    else none
  | _ => none

/-- Whether a token is Python's `nan` literal (case-insensitive). -/
def isNanLit : List Char → Bool
  | [c1, c2, c3] =>
    (c1 == 'n' || c1 == 'N') && (c2 == 'a' || c2 == 'A') && (c3 == 'n' || c3 == 'N')
  | _ => false

/-- The unsigned magnitude accepted by `float()` in the model: the `nan`
literal or a plain decimal literal. -/
def parseMag (l : List Char) : Option PFloat :=
  if isNanLit l then some .nan
  else (parseUnsigned l).map PFloat.num

/-- Python `float(tok)` on the modelled forms: surrounding whitespace is
stripped, an optional sign is followed by a plain decimal literal or the
case-insensitive `nan` literal; see `PFloat` for why the remaining forms
Python accepts are not modelled.  Returns `none` exactly when Python raises
`ValueError` on a modelled form. -/
def parseTok (tok : List Char) : Option PFloat :=
  match trimChars tok with
  | [] => none
  | c :: cs =>
    if c = '-' then (parseMag cs).map pfNeg
    else if c = '+' then parseMag cs
    else parseMag (c :: cs)

/-! ### Filename filtering (source lines 337-352) -/

/-- Whether the two characters form the two-digit time-slot part of the
regular expression for a time class: `00` for annual, `[0-9][0-9]` for
monthly, `1[3-6]` for seasonal (source lines 339, 342, 345). -/
def slotMatch : TimePat → Char → Char → Bool
  | .annual, c1, c2 => c1 == '0' && c2 == '0'
  | .monthly, c1, c2 => c1.isDigit && c2.isDigit
  | .seasonal, c1, c2 => c1 == '1' && (decide ('3' ≤ c2) && decide (c2 ≤ '6'))

/-- `re.search` of the pattern `<slot><field_code>` anywhere in a name:
some position holds two slot characters immediately followed by the
field-code token.  (WOA field codes contain no regex metacharacters, so the
Python pattern is a literal-plus-character-class search.) -/
def searchSlot (tp : TimePat) (fc : List Char) : List Char → Bool
  | c1 :: c2 :: rest => (slotMatch tp c1 c2 && prefixOf fc rest) || searchSlot tp fc (c2 :: rest)
  | _ => false

/-- `re.search(pattern, f)` for the three time-class patterns
(source line 352). -/
def fileMatches (tp : TimePat) (fc : String) (name : String) : Bool :=
  searchSlot tp fc.toList name.toList

/-- Validation of `time_code` and derivation of the pattern class and
expected file count (source lines 337-348). -/
def selector (time_code : String) : Except WoaError (TimePat × Nat) :=
  if time_code = "00" then .ok (.annual, 1)
  else if time_code = "01-12" then .ok (.monthly, 12)
  else if time_code = "13-16" then .ok (.seasonal, 4)
  else .error .InvalidSelector

/-- The filtered file list (source line 352). -/
def filteredFiles (csv_files : List WFile) (tp : TimePat) (fc : String) : List WFile :=
  csv_files.filter (fun f => fileMatches tp fc f.name)

instance : DecidableRel (fun a b : WFile => a.name ≤ b.name) :=
  fun a b => inferInstanceAs (Decidable (a.name ≤ b.name))

/-- `filtered_files.sort()`: stable lexicographic sort by file name
(source line 360). -/
def sortFiles (files : List WFile) : List WFile :=
  List.insertionSort (fun a b : WFile => a.name ≤ b.name) files

/-! ### Header parsing (source lines 362-368) -/

/-- The fixed depth-header label token. -/
def labelChars : List Char := "DEPTHS (M):".toList

/-- Parse a comma-separated token list, failing if any token fails
(the list comprehension `[float(d) for d in depth_str.split(',')]`). -/
def allParse : List (List Char) → Option (List PFloat)
  | [] => some []
  | s :: rest =>
    match parseTok s, allParse rest with
    | some v, some vs => some (v :: vs)
    | _, _ => none

/-- Reading of the depth axis from the second line of the first sorted file
(source lines 362-368): strip the line, take the text after the label token
(`split('DEPTHS (M):')[1]`, an `IndexError` — modelled `MalformedHeader` —
when the label is absent), split it on commas and parse every token
(`ValueError` — modelled `MalformedHeader` — on a non-numeric token). -/
def parseDepths (f : WFile) : Except WoaError (List PFloat) :=
  let depth_line := trimChars ((f.lines.getD 1 "").toList)
  match afterFirst labelChars depth_line with
  | none => .error .MalformedHeader
  | some suffix =>
    match allParse (splitComma (beforeNext labelChars suffix)) with
    | none => .error .MalformedHeader
    | some ds => .ok ds

/-! ### Pass 1: coordinate discovery (source lines 370-391) -/

/-- The comma-separated fields of a stripped data line
(`line.strip().split(',')`). -/
def fieldsOf (line : String) : List (List Char) :=
  splitComma (trimChars line.toList)

/-- The data lines of a file: everything after the two header lines. -/
def dataLines (f : WFile) : List String :=
  f.lines.drop 2

/-- Pass-1 treatment of one line (source lines 380-387): if the stripped
line has at least two comma-separated fields and both parse as floats,
the (lat, lon) pair; otherwise the line is silently skipped. -/
def latLonOfLine (line : String) : Option (PFloat × PFloat) :=
  let values := fieldsOf line
  if 2 ≤ values.length then
    match parseTok (values.getD 0 []), parseTok (values.getD 1 []) with
    | some lat, some lon => some (lat, lon)
    | _, _ => none
  else none

/-- Every latitude discovered by pass 1 over a file list, with repetition. -/
def allLats (files : List WFile) : List PFloat :=
  files.flatMap (fun f => (dataLines f).filterMap (fun l => (latLonOfLine l).map Prod.fst))

/-- Every longitude discovered by pass 1 over a file list, with repetition. -/
def allLons (files : List WFile) : List PFloat :=
  files.flatMap (fun f => (dataLines f).filterMap (fun l => (latLonOfLine l).map Prod.snd))

/-- One `set.add` (source lines 384-385): Python set membership on floats —
every `float()` call yields a fresh object, so the identity shortcut never
fires and membership is decided by `==`; a NaN therefore never matches an
existing element and every NaN occurrence is kept. -/
def pySetAdd (s : List PFloat) (x : PFloat) : List PFloat :=
  if s.any (fun y => pyEq y x) then s else s ++ [x]

/-- The pass-1 coordinate set, in insertion order. -/
def pyDedup (l : List PFloat) : List PFloat :=
  l.foldl pySetAdd []

/-- One insertion of a comparison sort by Python float `<`: the element is
placed before the first position whose element is not `<` it. -/
def pfInsert (x : PFloat) : List PFloat → List PFloat
  | [] => [x]
  | y :: ys => if pyLt y x then y :: pfInsert x ys else x :: y :: ys

/-- Python `sorted` with float `<` (source lines 390-391).  On NaN-free
input this is the ascending value sort, exactly CPython's result.  When a
NaN is present, CPython's output order additionally depends on the set's
hash-based iteration order and on Timsort's comparison schedule; the model
fixes one deterministic order.  Every property stated below about
NaN-containing outputs — membership, occurrence counts, and the failure of
strict ascent whenever a NaN coexists with another element — is invariant
under that choice. -/
def sortPF : List PFloat → List PFloat
  | [] => []
  | x :: xs => pfInsert x (sortPF xs)

/-- The coordinate lookup `{v: i for i, v in enumerate(vs)}` applied to a
key (source lines 410-411, 424-425): the first index whose element compares
`==` to the key, `none` modelling `KeyError`.  A NaN key never matches (the
pass-2 `float()` call yields a fresh object unequal to every stored key),
so a NaN lookup always takes the `KeyError` branch. -/
def lookupIndex (x : PFloat) : List PFloat → Option Nat
  | [] => none
  | y :: l => if pyEq x y then some 0 else (lookupIndex x l).map (fun n => n + 1)

/-! ### The grid and pass 2 (source lines 406-434) -/

/-- Apply `f` to the element at index `n`, leaving the list unchanged when
`n` is out of range. -/
def modifyAt {α : Type _} (f : α → α) : Nat → List α → List α
  | _, [] => []
  | 0, a :: l => f a :: l
  | n + 1, a :: l => a :: modifyAt f n l

/-- The numpy store `data[i, j, k, t] = v` with its surrounding
`except IndexError` handler: the cell is written when every index is in
range and the grid is left unchanged otherwise. -/
def set4 (g : Grid4) (i j k t : Nat) (v : PFloat) : Grid4 :=
  modifyAt (fun p => modifyAt (fun q => modifyAt (fun r => modifyAt (fun _ => some v) t r) k q) j p) i g

/-- Read the cell `(i, j, k, t)` of a grid; `none` when an index is out of
range, `some c` the stored cell otherwise. -/
def get4 (g : Grid4) (i j k t : Nat) : Option (Option PFloat) :=
  match nth g i with
  | none => none
  | some p =>
    match nth p j with
    | none => none
    | some q =>
      match nth q k with
      | none => none
      | some r => nth r t

/-- `np.full((a, b, c, d), np.nan)` (source line 407). -/
def mkGrid (a b c d : Nat) : Grid4 :=
  List.replicate a (List.replicate b (List.replicate c (List.replicate d (none : Option PFloat))))

/-- The inner pass-2 loop `for k, val in enumerate(data_values)` starting at
depth index `k` (source lines 427-432): a blank field is skipped, a
non-blank field that parses is stored (an out-of-range depth index is the
caught `IndexError`: the store is a no-op), a non-blank field that fails to
parse is the caught `ValueError`: skipped. -/
def writeValsFrom (g : Grid4) (i j t k : Nat) : List (List Char) → Grid4
  | [] => g
  | tok :: rest =>
    let g2 :=
      if trimChars tok = [] then g
      else
        match parseTok tok with
        | some v => set4 g i j k t v
        | none => g
    writeValsFrom g2 i j t (k + 1) rest

/-- The depth-value loop of pass 2 over a whole field list. -/
def writeVals (g : Grid4) (i j t : Nat) (vals : List (List Char)) : Grid4 :=
  writeValsFrom g i j t 0 vals

/-- Pass-2 treatment of one data line (source lines 418-434): lines with
fewer than three fields are skipped, a float `ValueError` on lat/lon skips
the line, a `KeyError` on either coordinate lookup skips the line, and
otherwise the remaining fields are written at depth indices 0, 1, …. -/
def processLine (lats lons : List PFloat) (t : Nat) (g : Grid4) (line : String) : Grid4 :=
  let values := fieldsOf line
  if 3 ≤ values.length then
    match parseTok (values.getD 0 []), parseTok (values.getD 1 []) with
    | some lat, some lon =>
      match lookupIndex lat lats, lookupIndex lon lons with
      | some i, some j => writeVals g i j t (values.drop 2)
      | _, _ => g
    | _, _ => g
  else g

/-- Characterization of the pass-2 line decision: the (i, j) cell and the
value fields a line writes, or `none` when the line is skipped.  This is not
a separate source construct; it only names the decision part of
`processLine`, which reads nothing from the grid. -/
def lineAction (lats lons : List PFloat) (line : String) : Option (Nat × Nat × List (List Char)) :=
  let values := fieldsOf line
  if 3 ≤ values.length then
    match parseTok (values.getD 0 []), parseTok (values.getD 1 []) with
    | some lat, some lon =>
      match lookupIndex lat lats, lookupIndex lon lons with
      | some i, some j => some (i, j, values.drop 2)
      | _, _ => none
    | _, _ => none
  else none

/-- Pass-2 treatment of one file at time index `t`. -/
def processFile (lats lons : List PFloat) (t : Nat) (g : Grid4) (f : WFile) : Grid4 :=
  (dataLines f).foldl (processLine lats lons t) g

/-- `for t, file in enumerate(filtered_files)` starting at index `n`
(source line 414). -/
def pass2From (lats lons : List PFloat) : Nat → Grid4 → List WFile → Grid4
  | _, g, [] => g
  | n, g, f :: fs => pass2From lats lons (n + 1) (processFile lats lons n g f) fs

/-- Pass 2 over the whole sorted file list (source lines 413-434). -/
def pass2 (lats lons : List PFloat) (g : Grid4) (files : List WFile) : Grid4 :=
  pass2From lats lons 0 g files

/-- The time-axis derivation from the filtered-file count: the
`if/elif/elif/else` chain of source lines 393-404. -/
def timeCount (n : Nat) : Except WoaError (Nat × List ℚ) :=
  if n = 12 then .ok (12, (List.range 12).map (fun m => (m : ℚ) + 1))
  else if n = 4 then .ok (4, (List.range 4).map (fun m => (m : ℚ) + 1))
  else if n = 1 then .ok (1, [0])
  else .error .UnexpectedFileCount

/-! ### The whole routine (source lines 297-444) -/

/-- Shallow embedding of `read_woa_csv` (source lines 297-444), stage for
stage: validate `time_code`; filter the file list by the derived pattern;
fail on an empty or wrong-sized filtered set; sort the remaining names;
parse the depth axis from the second line of the first file; discover the
latitude and longitude axes in a first pass; derive the time axis from the
file count; allocate the NaN-filled grid and populate it in a second pass;
return the grid with the coordinate dictionary. -/
def read_woa_csv (csv_files : List WFile) (field_code time_code : String) :
    Except WoaError (Grid4 × Coords) :=
  match selector time_code with
  | .error e => .error e
  | .ok sel =>
    let filtered := filteredFiles csv_files sel.1 field_code
    if filtered.length = 0 then .error .NoMatchingFiles
    else if filtered.length ≠ sel.2 then .error .FileCountMismatch
    else
      let sorted := sortFiles filtered
      match parseDepths (sorted.headD ⟨"", []⟩) with
      | .error e => .error e
      | .ok depths =>
        let lats := sortPF (pyDedup (allLats sorted))
        let lons := sortPF (pyDedup (allLons sorted))
        match timeCount sorted.length with
        | .error e => .error e
        | .ok nt =>
          .ok (pass2 lats lons (mkGrid lats.length lons.length depths.length nt.1) sorted,
               ⟨lats, lons, depths, nt.2⟩)

/-- Shape predicate for the 4-D grid: outer length and the length of every
nested level. -/
def hasShape (g : Grid4) (a b c d : Nat) : Prop :=
  g.length = a ∧ ∀ p ∈ g, p.length = b ∧ ∀ q ∈ p, q.length = c ∧ ∀ r ∈ q, r.length = d

instance (g : Grid4) (a b c d : Nat) : Decidable (hasShape g a b c d) := by
  unfold hasShape; infer_instance

/-- The claim C5 failure condition on the second line of a file, read off
the source's header parse: the label token is absent from the stripped
second line, or some comma-separated token of the split value list fails to
parse as a float. -/
def headerBad (f : WFile) : Bool :=
  let depth_line := trimChars ((f.lines.getD 1 "").toList)
  match afterFirst labelChars depth_line with
  | none => true
  | some suffix => (splitComma (beforeNext labelChars suffix)).any (fun tok => (parseTok tok).isNone)

/-- The minimal synthetic one-file annual dataset of the specification's
test-property list: an annual-named file whose second line ends in
`DEPTHS (M):0,10` and whose single data line is `10.0,20.0,5.5,`. -/
def exFile : WFile :=
  ⟨"woa23_decav_t00an04.csv",
   ["#COMMA SEPARATED CSV FILE",
    "#DEPTH LEVELS ARE LISTED AS DEPTHS (M):0,10",
    "10.0,20.0,5.5,"]⟩

/-- The (1, 1, 2, 1) grid expected from `exFile`: 5.5 at the surface cell
and the missing sentinel at the second depth. -/
def exGrid : Grid4 := [[[[some (5.5 : PFloat)], [none]]]]

/-- The coordinate bundle expected from `exFile`. -/
def exCoords : Coords := ⟨[10], [20], [0, 10], [0]⟩

/-- Whether every (lat, lon) pair that pass 1 parses from the given files
is free of NaN. -/
def noNanCoords (files : List WFile) : Bool :=
  files.all (fun f => (dataLines f).all (fun line =>
    match latLonOfLine line with
    | some p => !(decide (p.1 = PFloat.nan) || decide (p.2 = PFloat.nan))
    | none => true))

/-- A one-file annual dataset whose first data line has the latitude token
`nan`, which Python's `float()` accepts. -/
def exNanFile : WFile :=
  ⟨"woa23_decav_t00an04.csv",
   ["#COMMA SEPARATED CSV FILE",
    "#DEPTH LEVELS ARE LISTED AS DEPTHS (M):0,10",
    "nan,20.0,5.5,",
    "1.0,20.0,7.5,"]⟩

/-- The (2, 1, 2, 1) grid returned on `exNanFile`: the NaN-latitude row
stays entirely at the missing sentinel because its pass-2 lookup misses,
while the 1.0-latitude row holds 7.5 at the surface. -/
def exNanGrid : Grid4 := [[[[none], [none]]], [[[some (7.5 : PFloat)], [none]]]]

/-- The coordinate bundle returned on `exNanFile`: the latitude vector
holds NaN next to 1.0 and is therefore not strictly ascending. -/
def exNanCoords : Coords := ⟨[PFloat.nan, 1], [20], [0, 10], [0]⟩

/-! ### Lemmas about the list primitives -/

theorem length_modifyAt {α : Type _} (f : α → α) (n : Nat) (l : List α) :
    (modifyAt f n l).length = l.length := by
  induction l generalizing n with
  | nil => cases n <;> rfl
  | cons a l ih =>
    cases n with
    | zero => rfl
    | succ n => simpa [modifyAt] using ih n

theorem mem_modifyAt {α : Type _} {f : α → α} {n : Nat} {l : List α} {x : α}
    (h : x ∈ modifyAt f n l) : x ∈ l ∨ ∃ y, y ∈ l ∧ x = f y := by
  induction l generalizing n with
  | nil => simp [modifyAt] at h
  | cons a l ih =>
    cases n with
    | zero =>
      rcases List.mem_cons.1 h with h | h
      · exact Or.inr ⟨a, List.mem_cons_self a l, h⟩
      · exact Or.inl (List.mem_cons_of_mem a h)
    | succ n =>
      rcases List.mem_cons.1 h with h | h
      · exact Or.inl (h ▸ List.mem_cons_self a l)
      · rcases ih h with h | ⟨y, hy, hxy⟩
        · exact Or.inl (List.mem_cons_of_mem a h)
        · exact Or.inr ⟨y, List.mem_cons_of_mem a hy, hxy⟩

theorem nth_modifyAt {α : Type _} (f : α → α) (n m : Nat) (l : List α) :
    nth (modifyAt f n l) m = if m = n then (nth l n).map f else nth l m := by
  induction l generalizing n m with
  | nil => cases m <;> cases n <;> simp [nth, modifyAt]
  | cons a l ih =>
    cases n with
    | zero => cases m <;> simp [nth, modifyAt]
    | succ n =>
      cases m with
      | zero => simp [nth, modifyAt]
      | succ m => simpa [nth, modifyAt, Nat.succ_inj] using ih n m

theorem nth_eq_none_of_ge {α : Type _} {l : List α} {n : Nat} (h : l.length ≤ n) :
    nth l n = none := by
  induction l generalizing n with
  | nil => cases n <;> rfl
  | cons a l ih =>
    cases n with
    | zero => simp at h
    | succ n => exact ih (Nat.le_of_succ_le_succ h)

theorem modifyAt_eq_of_ge {α : Type _} {f : α → α} {n : Nat} {l : List α}
    (h : l.length ≤ n) : modifyAt f n l = l := by
  induction l generalizing n with
  | nil => cases n <;> rfl
  | cons a l ih =>
    cases n with
    | zero => simp at h
    | succ n => simp [modifyAt, ih (Nat.le_of_succ_le_succ h)]

theorem modifyAt_congr_id {α : Type _} {f : α → α} {n : Nat} {l : List α}
    (h : ∀ y ∈ l, f y = y) : modifyAt f n l = l := by
  induction l generalizing n with
  | nil => cases n <;> rfl
  | cons a l ih =>
    cases n with
    | zero => simp [modifyAt, h a (List.mem_cons_self a l)]
    | succ n => simp [modifyAt, ih (fun y hy => h y (List.mem_cons_of_mem a hy))]

theorem nth_modifyAt_self {α : Type _} (f : α → α) (n : Nat) (l : List α) :
    nth (modifyAt f n l) n = (nth l n).map f := by
  rw [nth_modifyAt]; simp

theorem nth_modifyAt_ne {α : Type _} (f : α → α) {n m : Nat} (l : List α) (h : m ≠ n) :
    nth (modifyAt f n l) m = nth l m := by
  rw [nth_modifyAt]; simp [h]

/-- Writing a cell leaves every cell with a different latitude index
unchanged. -/
theorem get4_set4_ne_i {i a : Nat} (g : Grid4) (j k t : Nat) (v : PFloat) (b c d : Nat)
    (h : a ≠ i) : get4 (set4 g i j k t v) a b c d = get4 g a b c d := by
  unfold set4 get4
  rw [nth_modifyAt_ne _ _ h]

/-- Writing a cell leaves every cell with a different longitude index
unchanged. -/
theorem get4_set4_ne_j {j b : Nat} (g : Grid4) (i k t : Nat) (v : PFloat) (a c d : Nat)
    (h : b ≠ j) : get4 (set4 g i j k t v) a b c d = get4 g a b c d := by
  unfold set4 get4
  by_cases hai : a = i
  · subst hai
    rw [nth_modifyAt_self]
    cases hg : nth g a with
    | none => rfl
    | some p =>
      simp only [Option.map_some']
      rw [nth_modifyAt_ne _ _ h]
  · rw [nth_modifyAt_ne _ _ hai]

/-- Writing a cell leaves every cell with a different depth index
unchanged. -/
theorem get4_set4_ne_k {k c : Nat} (g : Grid4) (i j t : Nat) (v : PFloat) (a b d : Nat)
    (h : c ≠ k) : get4 (set4 g i j k t v) a b c d = get4 g a b c d := by
  unfold set4 get4
  by_cases hai : a = i
  · subst hai
    rw [nth_modifyAt_self]
    cases hg : nth g a with
    | none => rfl
    | some p =>
      simp only [Option.map_some']
      by_cases hbj : b = j
      · subst hbj
        rw [nth_modifyAt_self]
        cases hp : nth p b with
        | none => rfl
        | some q =>
          simp only [Option.map_some']
          rw [nth_modifyAt_ne _ _ h]
      · rw [nth_modifyAt_ne _ _ hbj]
  · rw [nth_modifyAt_ne _ _ hai]

/-- Writing a cell leaves every cell with a different time index
unchanged. -/
theorem get4_set4_ne_t {t d : Nat} (g : Grid4) (i j k : Nat) (v : PFloat) (a b c : Nat)
    (h : d ≠ t) : get4 (set4 g i j k t v) a b c d = get4 g a b c d := by
  unfold set4 get4
  by_cases hai : a = i
  · subst hai
    rw [nth_modifyAt_self]
    cases hg : nth g a with
    | none => rfl
    | some p =>
      simp only [Option.map_some']
      by_cases hbj : b = j
      · subst hbj
        rw [nth_modifyAt_self]
        cases hp : nth p b with
        | none => rfl
        | some q =>
          simp only [Option.map_some']
          by_cases hck : c = k
          · subst hck
            rw [nth_modifyAt_self]
            cases hq : nth q c with
            | none => rfl
            | some r =>
              simp only [Option.map_some']
              rw [nth_modifyAt_ne _ _ h]
          · rw [nth_modifyAt_ne _ _ hck]
      · rw [nth_modifyAt_ne _ _ hbj]
  · rw [nth_modifyAt_ne _ _ hai]

/-- Reading the written cell: it carries the new value whenever the cell
exists (every index in range), and a write to a non-existent cell is a
no-op read as well. -/
theorem get4_set4_self (g : Grid4) (i j k t : Nat) (v : PFloat) :
    get4 (set4 g i j k t v) i j k t = (get4 g i j k t).map (fun _ => some v) := by
  unfold set4 get4
  rw [nth_modifyAt_self]
  cases hg : nth g i with
  | none => rfl
  | some p =>
    simp only [Option.map_some']
    rw [nth_modifyAt_self]
    cases hp : nth p j with
    | none => rfl
    | some q =>
      simp only [Option.map_some']
      rw [nth_modifyAt_self]
      cases hq : nth q k with
      | none => rfl
      | some r =>
        simp only [Option.map_some']
        rw [nth_modifyAt_self]

/-! ### Shape preservation -/

theorem hasShape_mkGrid (a b c d : Nat) : hasShape (mkGrid a b c d) a b c d := by
  refine ⟨List.length_replicate a _, ?_⟩
  intro p hp
  rw [List.eq_of_mem_replicate hp]
  refine ⟨List.length_replicate b _, ?_⟩
  intro q hq
  rw [List.eq_of_mem_replicate hq]
  refine ⟨List.length_replicate c _, ?_⟩
  intro r hr
  rw [List.eq_of_mem_replicate hr]
  exact List.length_replicate d _

theorem hasShape_set4 {g : Grid4} {a b c d : Nat} (i j k t : Nat) (v : PFloat)
    (h : hasShape g a b c d) : hasShape (set4 g i j k t v) a b c d := by
  obtain ⟨hlen, hmem⟩ := h
  refine ⟨by rw [set4, length_modifyAt, hlen], ?_⟩
  intro p hp
  rcases mem_modifyAt hp with hp | ⟨y, hy, rfl⟩
  · exact hmem p hp
  · obtain ⟨hylen, hymem⟩ := hmem y hy
    refine ⟨by rw [length_modifyAt, hylen], ?_⟩
    intro q hq
    rcases mem_modifyAt hq with hq | ⟨z, hz, rfl⟩
    · exact hymem q hq
    · obtain ⟨hzlen, hzmem⟩ := hymem z hz
      refine ⟨by rw [length_modifyAt, hzlen], ?_⟩
      intro r hr
      rcases mem_modifyAt hr with hr | ⟨w, hw, rfl⟩
      · exact hzmem r hr
      · rw [length_modifyAt]
        exact hzmem w hw

theorem foldl_preserve {α β : Type _} {P : α → Prop} {step : α → β → α}
    (h : ∀ g x, P g → P (step g x)) :
    ∀ (l : List β) (g : α), P g → P (l.foldl step g) := by
  intro l
  induction l with
  | nil => intro g hg; exact hg
  | cons x l ih => intro g hg; exact ih _ (h g x hg)

theorem hasShape_writeValsFrom {g : Grid4} {a b c d : Nat} (i j t : Nat)
    (vals : List (List Char)) (k : Nat) (h : hasShape g a b c d) :
    hasShape (writeValsFrom g i j t k vals) a b c d := by
  induction vals generalizing g k with
  | nil => exact h
  | cons tok rest ih =>
    unfold writeValsFrom
    apply ih
    dsimp only
    split
    · exact h
    · split
      · exact hasShape_set4 _ _ _ _ _ h
      · exact h

theorem hasShape_processLine {g : Grid4} {a b c d : Nat} (lats lons : List PFloat)
    (t : Nat) (line : String) (h : hasShape g a b c d) :
    hasShape (processLine lats lons t g line) a b c d := by
  unfold processLine
  dsimp only
  split
  · split
    · split
      · exact hasShape_writeValsFrom _ _ _ _ _ h
      · exact h
    · exact h
  · exact h

theorem hasShape_processFile {g : Grid4} {a b c d : Nat} (lats lons : List PFloat)
    (t : Nat) (f : WFile) (h : hasShape g a b c d) :
    hasShape (processFile lats lons t g f) a b c d := by
  unfold processFile
  exact foldl_preserve (P := fun g => hasShape g a b c d)
    (fun g line hg => hasShape_processLine lats lons t line hg) (dataLines f) g h

theorem hasShape_pass2From {a b c d : Nat} (lats lons : List PFloat) :
    ∀ (files : List WFile) (n : Nat) (g : Grid4), hasShape g a b c d →
      hasShape (pass2From lats lons n g files) a b c d := by
  intro files
  induction files with
  | nil => intro n g hg; exact hg
  | cons f fs ih => intro n g hg; exact ih _ _ (hasShape_processFile lats lons n f hg)

/-! ### Small facts about the pipeline stages -/

theorem length_sortFiles (l : List WFile) : (sortFiles l).length = l.length :=
  (List.perm_insertionSort _ l).length_eq

theorem mem_sortFiles {f : WFile} {l : List WFile} : f ∈ sortFiles l ↔ f ∈ l :=
  (List.perm_insertionSort _ l).mem_iff

theorem timeCount_ok {n : Nat} {nt : Nat × List ℚ} (h : timeCount n = .ok nt) :
    n = nt.1 ∧ nt.2.length = nt.1 := by
  unfold timeCount at h
  by_cases h12 : n = 12
  · rw [if_pos h12] at h
    injection h with h'
    subst h'
    exact ⟨h12, rfl⟩
  · rw [if_neg h12] at h
    by_cases h4 : n = 4
    · rw [if_pos h4] at h
      injection h with h'
      subst h'
      exact ⟨h4, rfl⟩
    · rw [if_neg h4] at h
      by_cases h1 : n = 1
      · rw [if_pos h1] at h
        injection h with h'
        subst h'
        exact ⟨h1, rfl⟩
      · rw [if_neg h1] at h
        exact absurd h (by simp)

/-! ### Python float equality, set and sort lemmas -/

theorem eq_of_pyEq {a b : PFloat} (h : pyEq a b = true) : a = b := by
  cases a with
  | nan => cases b <;> simp [pyEq] at h
  | num qa =>
    cases b with
    | nan => simp [pyEq] at h
    | num qb => simp [pyEq] at h; rw [h]

theorem pyEq_refl {x : PFloat} (h : x ≠ PFloat.nan) : pyEq x x = true := by
  cases x with
  | nan => exact absurd rfl h
  | num q => simp [pyEq]

theorem pyEq_comm (a b : PFloat) : pyEq a b = pyEq b a := by
  cases a <;> cases b <;> simp [pyEq, eq_comm]

theorem pyEq_false_symm : ∀ {x y : PFloat}, pyEq x y = false → pyEq y x = false := by
  intro x y h
  rw [pyEq_comm]
  exact h

theorem pf_num_of_ne_nan {x : PFloat} (h : x ≠ PFloat.nan) : ∃ q, x = PFloat.num q := by
  cases x with
  | num q => exact ⟨q, rfl⟩
  | nan => exact absurd rfl h

theorem pyLt_true_elim {a b : PFloat} (h : pyLt a b = true) :
    ∃ qa qb, a = PFloat.num qa ∧ b = PFloat.num qb ∧ qa < qb := by
  cases a with
  | nan => cases b <;> simp [pyLt] at h
  | num qa =>
    cases b with
    | nan => simp [pyLt] at h
    | num qb =>
      simp [pyLt] at h
      exact ⟨qa, qb, rfl, rfl, h⟩

theorem pfInsert_perm (x : PFloat) (l : List PFloat) : List.Perm (pfInsert x l) (x :: l) := by
  induction l with
  | nil => exact List.Perm.refl _
  | cons y ys ih =>
    unfold pfInsert
    by_cases h : pyLt y x = true
    · rw [if_pos h]
      exact (ih.cons y).trans (List.Perm.swap x y ys)
    · rw [if_neg h]

theorem sortPF_perm (l : List PFloat) : List.Perm (sortPF l) l := by
  induction l with
  | nil => exact List.Perm.refl _
  | cons x xs ih => exact (pfInsert_perm x (sortPF xs)).trans (ih.cons x)

theorem mem_sortPF {x : PFloat} {l : List PFloat} : x ∈ sortPF l ↔ x ∈ l :=
  (sortPF_perm l).mem_iff

theorem subset_pySetAdd {x : PFloat} {s : List PFloat} (y : PFloat) (h : x ∈ s) :
    x ∈ pySetAdd s y := by
  unfold pySetAdd
  split
  · exact h
  · exact List.mem_append_left _ h

theorem mem_pySetAdd {x : PFloat} {s : List PFloat} {y : PFloat}
    (h : x ∈ pySetAdd s y) : x ∈ s ∨ x = y := by
  unfold pySetAdd at h
  split at h
  · exact Or.inl h
  · rcases List.mem_append.1 h with h | h
    · exact Or.inl h
    · exact Or.inr (List.mem_singleton.1 h)

theorem mem_foldl_pySetAdd {x : PFloat} :
    ∀ (l : List PFloat) (acc : List PFloat), x ∈ acc → x ∈ l.foldl pySetAdd acc := by
  intro l
  induction l with
  | nil => intro acc h; exact h
  | cons z zs ih => intro acc h; exact ih _ (subset_pySetAdd z h)

theorem mem_of_mem_foldl_pySetAdd {x : PFloat} :
    ∀ (l : List PFloat) (acc : List PFloat), x ∈ l.foldl pySetAdd acc → x ∈ acc ∨ x ∈ l := by
  intro l
  induction l with
  | nil => intro acc h; exact Or.inl h
  | cons z zs ih =>
    intro acc h
    rcases ih _ h with h | h
    · rcases mem_pySetAdd h with h | h
      · exact Or.inl h
      · exact Or.inr (h ▸ List.mem_cons_self z zs)
    · exact Or.inr (List.mem_cons_of_mem z h)

theorem mem_of_mem_pyDedup {x : PFloat} {l : List PFloat} (h : x ∈ pyDedup l) : x ∈ l := by
  rcases mem_of_mem_foldl_pySetAdd l [] h with h | h
  · cases h
  · exact h

theorem pyDedup_complete {y : PFloat} :
    ∀ (l : List PFloat) (acc : List PFloat), y ∈ acc ∨ y ∈ l →
      ∃ x ∈ l.foldl pySetAdd acc, pyEq x y = true ∨ x = y := by
  intro l
  induction l with
  | nil =>
    intro acc h
    rcases h with h | h
    · exact ⟨y, h, Or.inr rfl⟩
    · cases h
  | cons z zs ih =>
    intro acc h
    rcases h with h | h
    · exact ih _ (Or.inl (subset_pySetAdd z h))
    · rcases List.mem_cons.1 h with h | h
      · subst h
        by_cases hAny : acc.any (fun w => pyEq w y) = true
        · obtain ⟨w, hw, hwz⟩ := List.any_eq_true.1 hAny
          exact ⟨w, mem_foldl_pySetAdd zs _ (subset_pySetAdd y hw), Or.inl hwz⟩
        · have hz : y ∈ pySetAdd acc y := by
            unfold pySetAdd
            rw [if_neg hAny]
            exact List.mem_append_right _ (List.mem_singleton_self y)
          exact ⟨y, mem_foldl_pySetAdd zs _ hz, Or.inr rfl⟩
      · exact ih _ (Or.inr h)

theorem pyDedup_pairwise_aux :
    ∀ (l : List PFloat) (acc : List PFloat),
      List.Pairwise (fun a b => pyEq a b = false) acc →
      List.Pairwise (fun a b => pyEq a b = false) (l.foldl pySetAdd acc) := by
  intro l
  induction l with
  | nil => intro acc h; exact h
  | cons z zs ih =>
    intro acc h
    refine ih _ ?_
    unfold pySetAdd
    by_cases hAny : acc.any (fun w => pyEq w z) = true
    · rw [if_pos hAny]
      exact h
    · rw [if_neg hAny]
      rw [List.pairwise_append]
      refine ⟨h, List.pairwise_singleton _ _, ?_⟩
      intro a ha b hb
      rw [List.mem_singleton.1 hb]
      by_contra hcon
      rw [Bool.not_eq_false] at hcon
      exact hAny (List.any_eq_true.2 ⟨a, ha, hcon⟩)

theorem pyDedup_pairwise (l : List PFloat) :
    List.Pairwise (fun a b => pyEq a b = false) (pyDedup l) :=
  pyDedup_pairwise_aux l [] List.Pairwise.nil

theorem pfInsert_sorted {x : PFloat} :
    ∀ {l : List PFloat}, (∀ y ∈ l, y ≠ PFloat.nan) →
      List.Pairwise (fun a b => pyLt b a = false) l →
      List.Pairwise (fun a b => pyLt b a = false) (pfInsert x l) := by
  intro l
  induction l with
  | nil => intro hnn hp; exact List.pairwise_singleton _ _
  | cons y ys ih =>
    intro hnn hp
    rw [List.pairwise_cons] at hp
    obtain ⟨hy_below, hys⟩ := hp
    unfold pfInsert
    by_cases h : pyLt y x = true
    · rw [if_pos h]
      rw [List.pairwise_cons]
      constructor
      · intro z hz
        rcases List.mem_cons.1 ((pfInsert_perm x ys).mem_iff.1 hz) with hz | hz
        · subst hz
          obtain ⟨qy, qx, hyq, hxq, hlt⟩ := pyLt_true_elim h
          subst hyq
          subst hxq
          simp [pyLt]
          exact le_of_lt hlt
        · exact hy_below z hz
      · exact ih (fun z hz => hnn z (List.mem_cons_of_mem y hz)) hys
    · rw [if_neg h]
      rw [Bool.not_eq_true] at h
      rw [List.pairwise_cons]
      constructor
      · intro z hz
        rcases List.mem_cons.1 hz with hz | hz
        · subst hz
          exact h
        · by_contra hcon
          rw [Bool.not_eq_false] at hcon
          obtain ⟨qz, qx, hzq, hxq, hzx⟩ := pyLt_true_elim hcon
          obtain ⟨qy, hyq⟩ := pf_num_of_ne_nan (hnn y (List.mem_cons_self y ys))
          have h1 : pyLt z y = false := hy_below z hz
          subst hzq
          subst hxq
          subst hyq
          simp [pyLt] at h h1
          exact absurd hzx (not_lt.2 (le_trans h h1))
      · rw [List.pairwise_cons]
        exact ⟨hy_below, hys⟩

theorem sortPF_sorted : ∀ {l : List PFloat}, (∀ y ∈ l, y ≠ PFloat.nan) →
    List.Pairwise (fun a b => pyLt b a = false) (sortPF l) := by
  intro l
  induction l with
  | nil => intro hnn; exact List.Pairwise.nil
  | cons x xs ih =>
    intro hnn
    unfold sortPF
    refine pfInsert_sorted ?_ (ih (fun y hy => hnn y (List.mem_cons_of_mem x hy)))
    intro y hy
    exact hnn y (List.mem_cons_of_mem x (mem_sortPF.1 hy))

/-- On NaN-free input, the pass-1 set followed by the sort yields a
strictly ascending list under the Python float order. -/
theorem sortPF_pyDedup_sorted {l : List PFloat} (hnn : ∀ y ∈ l, y ≠ PFloat.nan) :
    List.Sorted (fun a b => pyLt a b = true) (sortPF (pyDedup l)) := by
  have hnn' : ∀ y ∈ pyDedup l, y ≠ PFloat.nan :=
    fun y hy => hnn y (mem_of_mem_pyDedup hy)
  have hrle := sortPF_sorted hnn'
  have hneq : List.Pairwise (fun a b => pyEq a b = false) (sortPF (pyDedup l)) :=
    (List.Perm.pairwise_iff pyEq_false_symm (sortPF_perm (pyDedup l))).2 (pyDedup_pairwise l)
  refine (hrle.and hneq).imp_of_mem ?_
  intro a b ha hb hab
  obtain ⟨qa, hqa⟩ := pf_num_of_ne_nan (hnn' a (mem_sortPF.1 ha))
  obtain ⟨qb, hqb⟩ := pf_num_of_ne_nan (hnn' b (mem_sortPF.1 hb))
  obtain ⟨h1, h2⟩ := hab
  subst hqa
  subst hqb
  simp [pyLt, pyEq] at h1 h2 ⊢
  rcases lt_or_eq_of_le h1 with h | h
  · exact h
  · exact absurd h h2

/-- Membership in the sorted deduplicated coordinate list is membership in
the discovered values. -/
theorem mem_sortPF_pyDedup {x : PFloat} {l : List PFloat} :
    x ∈ sortPF (pyDedup l) ↔ x ∈ l := by
  rw [mem_sortPF]
  constructor
  · exact mem_of_mem_pyDedup
  · intro hx
    obtain ⟨y, hy, hcase⟩ := pyDedup_complete l [] (Or.inr hx)
    rcases hcase with h | h
    · rw [← eq_of_pyEq h]
      exact hy
    · rw [← h]
      exact hy

theorem lookupIndex_of_mem {x : PFloat} (hx : x ≠ PFloat.nan) :
    ∀ {l : List PFloat}, x ∈ l → ∃ i, lookupIndex x l = some i ∧ i < l.length := by
  intro l
  induction l with
  | nil => intro h; cases h
  | cons y l ih =>
    intro h
    by_cases hE : pyEq x y = true
    · exact ⟨0, by simp [lookupIndex, hE], Nat.succ_pos _⟩
    · have hxl : x ∈ l := by
        rcases List.mem_cons.1 h with h | h
        · subst h
          exact absurd (pyEq_refl hx) hE
        · exact h
      obtain ⟨i, hi, hlt⟩ := ih hxl
      refine ⟨i + 1, ?_, Nat.succ_lt_succ hlt⟩
      rw [Bool.not_eq_true] at hE
      simp [lookupIndex, hE, hi]

theorem noNanCoords_elim {files : List WFile} (h : noNanCoords files = true) :
    ∀ f ∈ files, ∀ line ∈ dataLines f, ∀ p, latLonOfLine line = some p →
      p.1 ≠ PFloat.nan ∧ p.2 ≠ PFloat.nan := by
  intro f hf line hline p hp
  unfold noNanCoords at h
  rw [List.all_eq_true] at h
  have h2 := h f hf
  rw [List.all_eq_true] at h2
  have h3 := h2 line hline
  rw [hp] at h3
  dsimp only at h3
  rw [Bool.not_eq_true'] at h3
  rw [Bool.or_eq_false_iff] at h3
  obtain ⟨ha, hb⟩ := h3
  rw [decide_eq_false_iff_not] at ha hb
  exact ⟨ha, hb⟩


/-- Inversion of a successful run: the result of every stage of the
pipeline, in terms of the input. -/
theorem read_ok_elim {files : List WFile} {fc tc : String} {g : Grid4} {c : Coords}
    (h : read_woa_csv files fc tc = .ok (g, c)) :
    ∃ sel, selector tc = .ok sel ∧
      filteredFiles files sel.1 fc ≠ [] ∧
      (filteredFiles files sel.1 fc).length = sel.2 ∧
      ∃ nt, timeCount (sortFiles (filteredFiles files sel.1 fc)).length = .ok nt ∧
        parseDepths ((sortFiles (filteredFiles files sel.1 fc)).headD ⟨"", []⟩) = .ok c.depth ∧
        c.lat = sortPF (pyDedup (allLats (sortFiles (filteredFiles files sel.1 fc)))) ∧
        c.lon = sortPF (pyDedup (allLons (sortFiles (filteredFiles files sel.1 fc)))) ∧
        c.time = nt.2 ∧
        g = pass2 c.lat c.lon (mkGrid c.lat.length c.lon.length c.depth.length nt.1)
              (sortFiles (filteredFiles files sel.1 fc)) := by
  unfold read_woa_csv at h
  cases hsel : selector tc with
  | error e => rw [hsel] at h; exact absurd h (by simp)
  | ok sel =>
    rw [hsel] at h
    dsimp only at h
    refine ⟨sel, rfl, ?_⟩
    by_cases h0 : (filteredFiles files sel.1 fc).length = 0
    · rw [if_pos h0] at h
      exact absurd h (by simp)
    · rw [if_neg h0] at h
      by_cases hne : (filteredFiles files sel.1 fc).length ≠ sel.2
      · rw [if_pos hne] at h
        exact absurd h (by simp)
      · rw [if_neg hne] at h
        refine ⟨fun hnil => h0 (by rw [hnil]; rfl), by omega, ?_⟩
        cases hd : parseDepths ((sortFiles (filteredFiles files sel.1 fc)).headD ⟨"", []⟩) with
        | error e => rw [hd] at h; exact absurd h (by simp)
        | ok depths =>
          rw [hd] at h
          dsimp only at h
          cases hnt : timeCount (sortFiles (filteredFiles files sel.1 fc)).length with
          | error e => rw [hnt] at h; exact absurd h (by simp)
          | ok nt =>
            rw [hnt] at h
            dsimp only at h
            rw [Except.ok.injEq, Prod.mk.injEq] at h
            obtain ⟨hg, hc⟩ := h
            subst hg
            subst hc
            exact ⟨nt, rfl, rfl, rfl, rfl, rfl, rfl⟩

/-! ### Helper lemmas for the error-path claims -/

theorem read_of_count_mismatch {files : List WFile} {fc tc : String} {sel : TimePat × Nat}
    (hsel : selector tc = .ok sel)
    (hne0 : (filteredFiles files sel.1 fc).length ≠ 0)
    (hne : (filteredFiles files sel.1 fc).length ≠ sel.2) :
    read_woa_csv files fc tc = .error .FileCountMismatch := by
  unfold read_woa_csv
  rw [hsel]
  dsimp only
  rw [if_neg hne0, if_pos hne]

theorem length_filtered_rename (files : List WFile) (tp : TimePat) (fc : String)
    (repl : String → List String) :
    (filteredFiles (files.map (fun f => ⟨f.name, repl f.name⟩)) tp fc).length
      = (filteredFiles files tp fc).length := by
  unfold filteredFiles
  rw [List.filter_map, List.length_map]
  rfl

theorem allParse_eq_none {toks : List (List Char)}
    (h : toks.any (fun tok => (parseTok tok).isNone) = true) : allParse toks = none := by
  induction toks with
  | nil => simp at h
  | cons tok rest ih =>
    rw [List.any_cons] at h
    unfold allParse
    cases hpt : parseTok tok with
    | none => rfl
    | some v =>
      rw [hpt] at h
      simp only [Option.isNone_some, Bool.false_or] at h
      rw [ih h]

theorem parseDepths_of_headerBad {f : WFile} (h : headerBad f = true) :
    parseDepths f = .error .MalformedHeader := by
  unfold headerBad at h
  dsimp only at h
  unfold parseDepths
  dsimp only
  cases ha : afterFirst labelChars (trimChars ((f.lines.getD 1 "").toList)) with
  | none => rfl
  | some suffix =>
    rw [ha] at h
    dsimp only at h ⊢
    rw [allParse_eq_none h]

/-! ### The claims -/

/-- C6: for every `time_code` other than exactly `"00"`, `"01-12"` or
`"13-16"`, `read_woa_csv` fails with `InvalidSelector`; the conclusion holds
for every file list and field code, so the failure happens before any file
is filtered or read. -/
theorem C6_invalid_selector (tc : String) (h0 : tc ≠ "00") (h1 : tc ≠ "01-12")
    (h2 : tc ≠ "13-16") (files : List WFile) (fc : String) :
    read_woa_csv files fc tc = .error .InvalidSelector := by
  unfold read_woa_csv
  have hsel : selector tc = .error .InvalidSelector := by
    unfold selector
    rw [if_neg h0, if_neg h1, if_neg h2]
  rw [hsel]

theorem C6_invalid_selector_witness :
    ("07" : String) ≠ "00" ∧ read_woa_csv [exFile] "an" "07" = .error .InvalidSelector :=
  ⟨by decide, C6_invalid_selector "07" (by decide) (by decide) (by decide) [exFile] "an"⟩

/-- C4: whenever the filtered file count is non-zero but differs from the
expected count for the (valid) time code, `read_woa_csv` fails with
`FileCountMismatch`; and the same failure occurs for every possible file
content (second conjunct: any replacement of every file's lines leaves the
outcome unchanged), so no file content is parsed and no output array is
produced. -/
theorem C4_file_count_mismatch (files : List WFile) (fc tc : String) (sel : TimePat × Nat)
    (hsel : selector tc = .ok sel)
    (hne0 : (filteredFiles files sel.1 fc).length ≠ 0)
    (hne : (filteredFiles files sel.1 fc).length ≠ sel.2) :
    read_woa_csv files fc tc = .error .FileCountMismatch ∧
    ∀ repl : String → List String,
      read_woa_csv (files.map (fun f => ⟨f.name, repl f.name⟩)) fc tc
        = .error .FileCountMismatch := by
  refine ⟨read_of_count_mismatch hsel hne0 hne, ?_⟩
  intro repl
  apply read_of_count_mismatch hsel
  · rw [length_filtered_rename]
    exact hne0
  · rw [length_filtered_rename]
    exact hne

theorem C4_file_count_mismatch_witness :
    selector "00" = .ok (TimePat.annual, 1) ∧
    read_woa_csv [exFile, ⟨"woa23_b_t00an04.csv", []⟩] "an" "00" = .error .FileCountMismatch :=
  ⟨rfl, (C4_file_count_mismatch [exFile, ⟨"woa23_b_t00an04.csv", []⟩] "an" "00"
    (TimePat.annual, 1) rfl (by decide) (by decide)).1⟩

/-- C5: when the second line of the first sorted matching file either lacks
the label token `DEPTHS (M):` or has a comma-separated token after the label
that does not parse as a number, `read_woa_csv` fails with
`MalformedHeader` instead of returning a grid. -/
theorem C5_malformed_header (files : List WFile) (fc tc : String) (sel : TimePat × Nat)
    (hsel : selector tc = .ok sel)
    (hne0 : (filteredFiles files sel.1 fc).length ≠ 0)
    (heq : (filteredFiles files sel.1 fc).length = sel.2)
    (hbad : headerBad ((sortFiles (filteredFiles files sel.1 fc)).headD ⟨"", []⟩) = true) :
    read_woa_csv files fc tc = .error .MalformedHeader := by
  unfold read_woa_csv
  rw [hsel]
  dsimp only
  rw [if_neg hne0, if_neg (by omega)]
  rw [parseDepths_of_headerBad hbad]

theorem C5_malformed_header_witness :
    headerBad ⟨"woa23_decav_t00an04.csv", ["h", "junk DEPTHS (M):0,10,abc", "1.0,2.0,3.0"]⟩ = true ∧
    read_woa_csv [⟨"woa23_decav_t00an04.csv", ["h", "junk DEPTHS (M):0,10,abc", "1.0,2.0,3.0"]⟩]
      "an" "00" = .error .MalformedHeader :=
  ⟨by decide,
   C5_malformed_header [⟨"woa23_decav_t00an04.csv", ["h", "junk DEPTHS (M):0,10,abc", "1.0,2.0,3.0"]⟩]
     "an" "00" (TimePat.annual, 1) rfl (by decide) (by decide) (by decide)⟩

/-- C2 (code bug evaluation): the monthly filename filter of the source
(pattern `[0-9][0-9]` + field code, source line 342, whose comment claims it
"Will match 01-12") in fact also selects filenames embedding time-slot code
00 and codes 13-16 next to the same field code, contradicting the claim that
only 01-12 are selected. -/
theorem C2_monthly_filter_matches_other_slots :
    fileMatches TimePat.monthly "an" "woa23_decav_t00an04.csv" = true ∧
    fileMatches TimePat.monthly "an" "woa23_decav_t13an04.csv" = true := by
  exact ⟨by decide, by decide⟩

/-- C8: on the minimal synthetic one-file annual dataset (`exFile`, whose
second line ends in `DEPTHS (M):0,10` and whose one data line is
`10.0,20.0,5.5,`), `read_woa_csv` returns the (1,1,2,1) grid holding 5.5 at
the surface cell and the missing sentinel (modelled `none`) at the second
depth, with coordinates lat = [10.0], lon = [20.0], depth = [0.0, 10.0],
time = [0]. -/
theorem C8_minimal_annual :
    read_woa_csv [exFile] "an" "00" = .ok (exGrid, exCoords) ∧
    get4 exGrid 0 0 0 0 = some (some (5.5 : PFloat)) ∧
    get4 exGrid 0 0 1 0 = some none :=
  ⟨by with_unfolding_all rfl, by with_unfolding_all rfl, by with_unfolding_all rfl⟩

/-- C1: every successful call returns a grid whose shape is exactly
(number of latitudes, number of longitudes, number of depths, number of
time points), and the time-axis length is 1 for `time_code` `"00"`, 12 for
the monthly code `"01-12"` and 4 for the seasonal code `"13-16"`. -/
theorem C1_grid_shape {files : List WFile} {fc tc : String} {g : Grid4} {c : Coords}
    (h : read_woa_csv files fc tc = .ok (g, c)) :
    hasShape g c.lat.length c.lon.length c.depth.length c.time.length ∧
    (tc = "00" → c.time.length = 1) ∧ (tc = "01-12" → c.time.length = 12) ∧
    (tc = "13-16" → c.time.length = 4) := by
  obtain ⟨sel, hsel, hnil, hcount, nt, hnt, hd, hlat, hlon, htime, hg⟩ := read_ok_elim h
  obtain ⟨hn, hlen⟩ := timeCount_ok hnt
  have hct : c.time.length = sel.2 := by
    rw [htime, hlen, ← hn, length_sortFiles]
    exact hcount
  refine ⟨?_, ?_, ?_, ?_⟩
  · have hnt1 : c.time.length = nt.1 := by rw [htime]; exact hlen
    rw [hg, hnt1]
    unfold pass2
    exact hasShape_pass2From _ _ _ _ _ (hasShape_mkGrid _ _ _ _)
  · intro htc
    subst htc
    rw [show selector "00" = (Except.ok (TimePat.annual, 1) : Except WoaError (TimePat × Nat))
      from rfl] at hsel
    injection hsel with h'
    rw [← h'] at hct
    exact hct
  · intro htc
    subst htc
    rw [show selector "01-12" = (Except.ok (TimePat.monthly, 12) : Except WoaError (TimePat × Nat))
      from rfl] at hsel
    injection hsel with h'
    rw [← h'] at hct
    exact hct
  · intro htc
    subst htc
    rw [show selector "13-16" = (Except.ok (TimePat.seasonal, 4) : Except WoaError (TimePat × Nat))
      from rfl] at hsel
    injection hsel with h'
    rw [← h'] at hct
    exact hct

theorem C1_grid_shape_witness :
    hasShape exGrid exCoords.lat.length exCoords.lon.length exCoords.depth.length
      exCoords.time.length ∧
    ("00" = "00" → exCoords.time.length = 1) ∧ ("00" = "01-12" → exCoords.time.length = 12) ∧
    ("00" = "13-16" → exCoords.time.length = 4) :=
  @C1_grid_shape [exFile] "an" "00" exGrid exCoords (by with_unfolding_all rfl)

/-- C7 counterexample: on `exNanFile` — a successful annual call whose
first data line has latitude token `nan`, accepted by Python `float()` —
the returned latitude vector holds NaN next to 1.0, so it is not strictly
ascending under the Python float order; the claim as stated is false of
the program. -/
theorem C7_counterexample :
    read_woa_csv [exNanFile] "an" "00" = .ok (exNanGrid, exNanCoords) ∧
    PFloat.nan ∈ exNanCoords.lat ∧
    ¬ List.Sorted (fun a b : PFloat => pyLt a b = true) exNanCoords.lat := by
  refine ⟨by with_unfolding_all rfl, by decide, ?_⟩
  intro hS
  have hS' : List.Sorted (fun a b : PFloat => pyLt a b = true)
      (PFloat.nan :: [(1 : PFloat)]) := hS
  have h2 := List.rel_of_sorted_cons hS' (1 : PFloat) (List.mem_cons_self _ _)
  have h3 : false = true := h2
  exact Bool.noConfusion h3

/-- C7 (amended): on every successful call in which no data line of a
matching file parses a NaN latitude or longitude, the latitude and
longitude coordinate vectors are strictly ascending under the Python float
order (hence duplicate-free), and each contains exactly the distinct
latitude (respectively longitude) values that parse as the first two
comma-separated fields of some data line of some matching file. -/
theorem C7_coords_sorted_complete {files : List WFile} {fc tc : String} {g : Grid4} {c : Coords}
    {sel : TimePat × Nat}
    (h : read_woa_csv files fc tc = .ok (g, c)) (hsel : selector tc = .ok sel)
    (hnan : noNanCoords (filteredFiles files sel.1 fc) = true) :
    List.Sorted (fun a b : PFloat => pyLt a b = true) c.lat ∧
    List.Sorted (fun a b : PFloat => pyLt a b = true) c.lon ∧
    (∀ x : PFloat, x ∈ c.lat ↔ ∃ f ∈ filteredFiles files sel.1 fc, ∃ line ∈ dataLines f,
      ∃ y : PFloat, latLonOfLine line = some (x, y)) ∧
    (∀ y : PFloat, y ∈ c.lon ↔ ∃ f ∈ filteredFiles files sel.1 fc, ∃ line ∈ dataLines f,
      ∃ x : PFloat, latLonOfLine line = some (x, y)) := by
  obtain ⟨sel0, hsel0, hnil, hcount, nt, hnt, hd, hlat, hlon, htime, hg⟩ := read_ok_elim h
  rw [hsel] at hsel0
  injection hsel0 with he
  subst he
  have hLnn : ∀ x ∈ allLats (sortFiles (filteredFiles files sel.1 fc)), x ≠ PFloat.nan := by
    intro x hx
    unfold allLats at hx
    rw [List.mem_flatMap] at hx
    obtain ⟨f, hf, hx2⟩ := hx
    rw [List.mem_filterMap] at hx2
    obtain ⟨line, hline, hsome⟩ := hx2
    rw [Option.map_eq_some'] at hsome
    obtain ⟨p, hp, hfst⟩ := hsome
    rw [← hfst]
    exact (noNanCoords_elim hnan f (mem_sortFiles.1 hf) line hline p hp).1
  have hOnn : ∀ y ∈ allLons (sortFiles (filteredFiles files sel.1 fc)), y ≠ PFloat.nan := by
    intro y hy
    unfold allLons at hy
    rw [List.mem_flatMap] at hy
    obtain ⟨f, hf, hy2⟩ := hy
    rw [List.mem_filterMap] at hy2
    obtain ⟨line, hline, hsome⟩ := hy2
    rw [Option.map_eq_some'] at hsome
    obtain ⟨p, hp, hsnd⟩ := hsome
    rw [← hsnd]
    exact (noNanCoords_elim hnan f (mem_sortFiles.1 hf) line hline p hp).2
  refine ⟨by rw [hlat]; exact sortPF_pyDedup_sorted hLnn,
          by rw [hlon]; exact sortPF_pyDedup_sorted hOnn, ?_, ?_⟩
  · intro x
    rw [hlat, mem_sortPF_pyDedup]
    unfold allLats
    rw [List.mem_flatMap]
    constructor
    · rintro ⟨f, hf, hx⟩
      rw [List.mem_filterMap] at hx
      obtain ⟨line, hline, hsome⟩ := hx
      rw [Option.map_eq_some'] at hsome
      obtain ⟨p, hp, hfst⟩ := hsome
      exact ⟨f, mem_sortFiles.1 hf, line, hline, p.2, by rw [hp, ← hfst]⟩
    · rintro ⟨f, hf, line, hline, y, hxy⟩
      refine ⟨f, mem_sortFiles.2 hf, ?_⟩
      rw [List.mem_filterMap]
      exact ⟨line, hline, by rw [hxy]; rfl⟩
  · intro y
    rw [hlon, mem_sortPF_pyDedup]
    unfold allLons
    rw [List.mem_flatMap]
    constructor
    · rintro ⟨f, hf, hy⟩
      rw [List.mem_filterMap] at hy
      obtain ⟨line, hline, hsome⟩ := hy
      rw [Option.map_eq_some'] at hsome
      obtain ⟨p, hp, hsnd⟩ := hsome
      exact ⟨f, mem_sortFiles.1 hf, line, hline, p.1, by rw [hp, ← hsnd]⟩
    · rintro ⟨f, hf, line, hline, x, hxy⟩
      refine ⟨f, mem_sortFiles.2 hf, ?_⟩
      rw [List.mem_filterMap]
      exact ⟨line, hline, by rw [hxy]; rfl⟩

theorem C7_coords_sorted_complete_witness :
    List.Sorted (fun a b : PFloat => pyLt a b = true) exCoords.lat ∧
    List.Sorted (fun a b : PFloat => pyLt a b = true) exCoords.lon ∧
    (∀ x : PFloat, x ∈ exCoords.lat ↔
      ∃ f ∈ filteredFiles [exFile] (TimePat.annual, 1).1 "an", ∃ line ∈ dataLines f,
        ∃ y : PFloat, latLonOfLine line = some (x, y)) ∧
    (∀ y : PFloat, y ∈ exCoords.lon ↔
      ∃ f ∈ filteredFiles [exFile] (TimePat.annual, 1).1 "an", ∃ line ∈ dataLines f,
        ∃ x : PFloat, latLonOfLine line = some (x, y)) :=
  @C7_coords_sorted_complete [exFile] "an" "00" exGrid exCoords (TimePat.annual, 1)
    (by with_unfolding_all rfl) rfl (by with_unfolding_all rfl)

/-- C9 counterexample: the `KeyError` branch of the pass-2 handler is
reachable.  On `exNanFile` the call succeeds, the data line `nan,20.0,5.5,`
satisfies every pass-2 guard (at least three fields, both coordinate fields
parse — Python `float("nan")` succeeds), yet the latitude lookup misses:
the freshly parsed NaN compares unequal to every stored key, `lat_idx[lat]`
raises `KeyError`, and the handler skips the line; the claim as stated is
false of the program. -/
theorem C9_counterexample :
    read_woa_csv [exNanFile] "an" "00" = .ok (exNanGrid, exNanCoords) ∧
    3 ≤ (fieldsOf "nan,20.0,5.5,").length ∧
    parseTok ((fieldsOf "nan,20.0,5.5,").getD 0 []) = some PFloat.nan ∧
    parseTok ((fieldsOf "nan,20.0,5.5,").getD 1 []) = some (20 : PFloat) ∧
    PFloat.nan ∈ exNanCoords.lat ∧
    lookupIndex PFloat.nan exNanCoords.lat = none :=
  ⟨by with_unfolding_all rfl, by decide, by with_unfolding_all rfl,
   by with_unfolding_all rfl, by decide, by decide⟩

/-- C9 (amended): on every successful call, any data line accepted by
pass 2 (at least three comma-separated fields with the first two parsing as
floats) whose parsed latitude and longitude are not NaN has both of its
coordinates in the lookup tables built by pass 1 over the same sorted file
list, with an in-range index — so for such lines the `KeyError` branch of
the pass-2 handler is not taken and grid indexing on (i, j) cannot go out
of range; only NaN coordinates reach the `KeyError` branch. -/
theorem C9_pass2_lookup_total {files : List WFile} {fc tc : String} {g : Grid4} {c : Coords}
    {sel : TimePat × Nat}
    (h : read_woa_csv files fc tc = .ok (g, c)) (hsel : selector tc = .ok sel)
    {f : WFile} (hf : f ∈ sortFiles (filteredFiles files sel.1 fc))
    {line : String} (hline : line ∈ dataLines f) {lat lon : PFloat}
    (hlen : 3 ≤ (fieldsOf line).length)
    (hlat : parseTok ((fieldsOf line).getD 0 []) = some lat)
    (hlon : parseTok ((fieldsOf line).getD 1 []) = some lon)
    (hlatn : lat ≠ PFloat.nan) (hlonn : lon ≠ PFloat.nan) :
    (∃ i, lookupIndex lat c.lat = some i ∧ i < c.lat.length) ∧
    (∃ j, lookupIndex lon c.lon = some j ∧ j < c.lon.length) := by
  obtain ⟨sel', hsel', hnil, hcount, nt, hnt, hd, hlatc, hlonc, htime, hg⟩ := read_ok_elim h
  rw [hsel] at hsel'
  injection hsel' with he
  subst he
  have hll : latLonOfLine line = some (lat, lon) := by
    unfold latLonOfLine
    dsimp only
    rw [if_pos (by omega), hlat, hlon]
  have hmemlat : lat ∈ c.lat := by
    rw [hlatc, mem_sortPF_pyDedup]
    unfold allLats
    rw [List.mem_flatMap]
    refine ⟨f, hf, ?_⟩
    rw [List.mem_filterMap]
    exact ⟨line, hline, by rw [hll]; rfl⟩
  have hmemlon : lon ∈ c.lon := by
    rw [hlonc, mem_sortPF_pyDedup]
    unfold allLons
    rw [List.mem_flatMap]
    refine ⟨f, hf, ?_⟩
    rw [List.mem_filterMap]
    exact ⟨line, hline, by rw [hll]; rfl⟩
  exact ⟨lookupIndex_of_mem hlatn hmemlat, lookupIndex_of_mem hlonn hmemlon⟩

theorem C9_pass2_lookup_total_witness :
    (∃ i, lookupIndex 10 exCoords.lat = some i ∧ i < exCoords.lat.length) ∧
    (∃ j, lookupIndex 20 exCoords.lon = some j ∧ j < exCoords.lon.length) :=
  @C9_pass2_lookup_total [exFile] "an" "00" exGrid exCoords (TimePat.annual, 1)
    (by with_unfolding_all rfl) rfl exFile (by decide) "10.0,20.0,5.5," (by decide) 10 20
    (by decide) (by with_unfolding_all rfl) (by with_unfolding_all rfl)
    (by decide) (by decide)

/-! ### Time-slice lemmas for C3 -/

theorem processLine_eq_action (lats lons : List PFloat) (t : Nat) (g : Grid4) (line : String) :
    processLine lats lons t g line =
      match lineAction lats lons line with
      | none => g
      | some act => writeVals g act.1 act.2.1 t act.2.2 := by
  unfold processLine lineAction
  dsimp only
  by_cases h3 : 3 ≤ (fieldsOf line).length
  · rw [if_pos h3, if_pos h3]
    cases hp0 : parseTok ((fieldsOf line).getD 0 []) with
    | none => cases hp1 : parseTok ((fieldsOf line).getD 1 []) <;> rfl
    | some lat =>
      cases hp1 : parseTok ((fieldsOf line).getD 1 []) with
      | none => rfl
      | some lon =>
        dsimp only
        cases hi : lookupIndex lat lats with
        | none => cases hj : lookupIndex lon lons <;> rfl
        | some i =>
          cases hj : lookupIndex lon lons with
          | none => rfl
          | some j => rfl
  · rw [if_neg h3, if_neg h3]

theorem writeValsFrom_slice_ne {t d : Nat} (hd : d ≠ t) (i j : Nat) :
    ∀ (vals : List (List Char)) (k : Nat) (g : Grid4) (a b c : Nat),
      get4 (writeValsFrom g i j t k vals) a b c d = get4 g a b c d := by
  intro vals
  induction vals with
  | nil => intro k g a b c; rfl
  | cons tok rest ih =>
    intro k g a b c
    unfold writeValsFrom
    dsimp only
    by_cases hb : trimChars tok = []
    · rw [if_pos hb]
      exact ih (k + 1) g a b c
    · rw [if_neg hb]
      cases hp : parseTok tok with
      | none => exact ih (k + 1) g a b c
      | some v =>
        rw [ih (k + 1) _ a b c]
        exact get4_set4_ne_t g i j k v a b c hd

theorem processLine_slice_ne {t d : Nat} (hd : d ≠ t) (lats lons : List PFloat) (line : String)
    (g : Grid4) (a b c : Nat) :
    get4 (processLine lats lons t g line) a b c d = get4 g a b c d := by
  rw [processLine_eq_action]
  cases lineAction lats lons line with
  | none => rfl
  | some act => exact writeValsFrom_slice_ne hd act.1 act.2.1 act.2.2 0 g a b c

theorem processFile_slice_ne {t d : Nat} (hd : d ≠ t) (lats lons : List PFloat) (f : WFile)
    (g : Grid4) (a b c : Nat) :
    get4 (processFile lats lons t g f) a b c d = get4 g a b c d := by
  unfold processFile
  induction dataLines f generalizing g with
  | nil => rfl
  | cons line rest ih =>
    rw [List.foldl_cons, ih, processLine_slice_ne hd]

theorem pass2From_lt (lats lons : List PFloat) :
    ∀ (files : List WFile) (n : Nat) (g : Grid4) (d : Nat), d < n →
      ∀ a b c, get4 (pass2From lats lons n g files) a b c d = get4 g a b c d := by
  intro files
  induction files with
  | nil => intro n g d hd a b c; rfl
  | cons f fs ih =>
    intro n g d hd a b c
    unfold pass2From
    rw [ih (n + 1) _ d (by omega), processFile_slice_ne (by omega)]

theorem get4_set4_slice_eq {g1 g2 : Grid4} {t : Nat}
    (hE : ∀ a b c, get4 g1 a b c t = get4 g2 a b c t) (i j k : Nat) (v : PFloat) :
    ∀ a b c, get4 (set4 g1 i j k t v) a b c t = get4 (set4 g2 i j k t v) a b c t := by
  intro a b c
  by_cases hai : a = i
  · by_cases hbj : b = j
    · by_cases hck : c = k
      · subst hai; subst hbj; subst hck
        rw [get4_set4_self, get4_set4_self, hE]
      · rw [get4_set4_ne_k g1 i j t v a b t hck, get4_set4_ne_k g2 i j t v a b t hck, hE]
    · rw [get4_set4_ne_j g1 i k t v a c t hbj, get4_set4_ne_j g2 i k t v a c t hbj, hE]
  · rw [get4_set4_ne_i g1 j k t v b c t hai, get4_set4_ne_i g2 j k t v b c t hai, hE]

theorem writeValsFrom_slice_eq {t : Nat} (i j : Nat) :
    ∀ (vals : List (List Char)) (k : Nat) (g1 g2 : Grid4),
      (∀ a b c, get4 g1 a b c t = get4 g2 a b c t) →
      ∀ a b c, get4 (writeValsFrom g1 i j t k vals) a b c t
        = get4 (writeValsFrom g2 i j t k vals) a b c t := by
  intro vals
  induction vals with
  | nil => intro k g1 g2 hE; exact hE
  | cons tok rest ih =>
    intro k g1 g2 hE
    unfold writeValsFrom
    dsimp only
    by_cases hb : trimChars tok = []
    · rw [if_pos hb, if_pos hb]
      exact ih (k + 1) g1 g2 hE
    · rw [if_neg hb, if_neg hb]
      cases hp : parseTok tok with
      | none => exact ih (k + 1) g1 g2 hE
      | some v => exact ih (k + 1) _ _ (get4_set4_slice_eq hE i j k v)

theorem processLine_slice_eq {t : Nat} (lats lons : List PFloat) (line : String) (g1 g2 : Grid4)
    (hE : ∀ a b c, get4 g1 a b c t = get4 g2 a b c t) :
    ∀ a b c, get4 (processLine lats lons t g1 line) a b c t
      = get4 (processLine lats lons t g2 line) a b c t := by
  rw [processLine_eq_action, processLine_eq_action]
  cases lineAction lats lons line with
  | none => exact hE
  | some act => exact writeValsFrom_slice_eq act.1 act.2.1 act.2.2 0 g1 g2 hE

theorem processFile_slice_eq {t : Nat} (lats lons : List PFloat) (f : WFile) (g1 g2 : Grid4)
    (hE : ∀ a b c, get4 g1 a b c t = get4 g2 a b c t) :
    ∀ a b c, get4 (processFile lats lons t g1 f) a b c t
      = get4 (processFile lats lons t g2 f) a b c t := by
  unfold processFile
  induction dataLines f generalizing g1 g2 with
  | nil => exact hE
  | cons line rest ih =>
    rw [List.foldl_cons, List.foldl_cons]
    exact ih _ _ (processLine_slice_eq lats lons line g1 g2 hE)

/-- The time slice at index `n + t` of the pass-2 result over a file list
processed from start index `n` equals the slice obtained by processing only
the file at position `t` of that list on the initial grid: each file's
values land exactly in its own time slot. -/
theorem pass2From_slice (lats lons : List PFloat) :
    ∀ (files : List WFile) (n : Nat) (g : Grid4) (t : Nat) (f : WFile),
      nth files t = some f →
      ∀ a b c, get4 (pass2From lats lons n g files) a b c (n + t)
        = get4 (processFile lats lons (n + t) g f) a b c (n + t) := by
  intro files
  induction files with
  | nil => intro n g t f hf; cases hf
  | cons f0 fs ih =>
    intro n g t f hf a b c
    cases t with
    | zero =>
      injection hf with hf0
      subst hf0
      rw [Nat.add_zero]
      unfold pass2From
      exact pass2From_lt lats lons fs (n + 1) _ n (by omega) a b c
    | succ t' =>
      unfold pass2From
      have harith : n + (t' + 1) = (n + 1) + t' := by omega
      rw [harith]
      rw [ih (n + 1) (processFile lats lons n g f0) t' f hf a b c]
      apply processFile_slice_eq
      intro a' b' c'
      exact processFile_slice_ne (by omega) lats lons f0 g a' b' c'

/-- C3: on every successful call the returned time vector is derived from
the selector alone — `[0]` for annual, `1..12` for monthly, `1..4` for
seasonal, never from file contents — and each file's values are written at
the time index equal to that file's position in the lexicographically
sorted filtered file list: the time-`t` slice of the returned grid equals
the slice produced by processing just the `t`-th sorted file on the fresh
grid. -/
theorem C3_time_order {files : List WFile} {fc tc : String} {g : Grid4} {c : Coords}
    (h : read_woa_csv files fc tc = .ok (g, c)) :
    ((tc = "00" → c.time = [0]) ∧
     (tc = "01-12" → c.time = [1, 2, 3, 4, 5, 6, 7, 8, 9, 10, 11, 12]) ∧
     (tc = "13-16" → c.time = [1, 2, 3, 4])) ∧
    ∀ sel, selector tc = .ok sel →
      ∀ t f, nth (sortFiles (filteredFiles files sel.1 fc)) t = some f →
        ∀ a b k, get4 g a b k t =
          get4 (processFile c.lat c.lon t
            (mkGrid c.lat.length c.lon.length c.depth.length c.time.length) f) a b k t := by
  obtain ⟨sel0, hsel0, hnil, hcount, nt, hnt, hd, hlat, hlon, htime, hg⟩ := read_ok_elim h
  obtain ⟨hn, hlen⟩ := timeCount_ok hnt
  have hct : c.time.length = nt.1 := by rw [htime]; exact hlen
  constructor
  · refine ⟨?_, ?_, ?_⟩ <;> intro htc <;> subst htc
    · rw [show selector "00" = (Except.ok (TimePat.annual, 1) : Except WoaError (TimePat × Nat))
        from rfl] at hsel0
      injection hsel0 with h'
      have h1 : (sortFiles (filteredFiles files sel0.1 fc)).length = 1 := by
        rw [length_sortFiles, hcount, ← h']
      rw [h1] at hnt
      rw [show timeCount 1 = (Except.ok ((1 : Nat), ([0] : List ℚ)) : Except WoaError (Nat × List ℚ))
        from rfl] at hnt
      injection hnt with h''
      rw [htime, ← h'']
    · rw [show selector "01-12" = (Except.ok (TimePat.monthly, 12) : Except WoaError (TimePat × Nat))
        from rfl] at hsel0
      injection hsel0 with h'
      have h1 : (sortFiles (filteredFiles files sel0.1 fc)).length = 12 := by
        rw [length_sortFiles, hcount, ← h']
      rw [h1] at hnt
      rw [show timeCount 12 = (Except.ok ((12 : Nat), (List.range 12).map (fun m => (m : ℚ) + 1))
        : Except WoaError (Nat × List ℚ)) from rfl] at hnt
      injection hnt with h''
      rw [htime, ← h'']
      with_unfolding_all rfl
    · rw [show selector "13-16" = (Except.ok (TimePat.seasonal, 4) : Except WoaError (TimePat × Nat))
        from rfl] at hsel0
      injection hsel0 with h'
      have h1 : (sortFiles (filteredFiles files sel0.1 fc)).length = 4 := by
        rw [length_sortFiles, hcount, ← h']
      rw [h1] at hnt
      rw [show timeCount 4 = (Except.ok ((4 : Nat), (List.range 4).map (fun m => (m : ℚ) + 1))
        : Except WoaError (Nat × List ℚ)) from rfl] at hnt
      injection hnt with h''
      rw [htime, ← h'']
      with_unfolding_all rfl
  · intro sel hsel t f hf a b k
    rw [hsel0] at hsel
    injection hsel with he
    subst he
    rw [hg, hct]
    unfold pass2
    have hs := pass2From_slice c.lat c.lon (sortFiles (filteredFiles files sel0.1 fc)) 0
      (mkGrid c.lat.length c.lon.length c.depth.length nt.1) t f hf a b k
    rw [Nat.zero_add] at hs
    exact hs

theorem C3_time_order_witness :
    (("00" = "00" → exCoords.time = [0]) ∧
     ("00" = "01-12" → exCoords.time = [1, 2, 3, 4, 5, 6, 7, 8, 9, 10, 11, 12]) ∧
     ("00" = "13-16" → exCoords.time = [1, 2, 3, 4])) ∧
    ∀ sel, selector "00" = .ok sel →
      ∀ t f, nth (sortFiles (filteredFiles [exFile] sel.1 "an")) t = some f →
        ∀ a b k, get4 exGrid a b k t =
          get4 (processFile exCoords.lat exCoords.lon t
            (mkGrid exCoords.lat.length exCoords.lon.length exCoords.depth.length
              exCoords.time.length) f) a b k t :=
  @C3_time_order [exFile] "an" "00" exGrid exCoords (by with_unfolding_all rfl)

/-! ### Depth-overflow lemmas for C10 -/

theorem set4_depth_oob {g : Grid4} {a b nD d : Nat} (hshape : hasShape g a b nD d)
    (i j t : Nat) (v : PFloat) {k : Nat} (hk : nD ≤ k) : set4 g i j k t v = g := by
  unfold set4
  apply modifyAt_congr_id
  intro p hp
  apply modifyAt_congr_id
  intro q hq
  apply modifyAt_eq_of_ge
  obtain ⟨-, hmem⟩ := hshape
  obtain ⟨-, hmem2⟩ := hmem p hp
  obtain ⟨hqlen, -⟩ := hmem2 q hq
  rw [hqlen]
  exact hk

theorem writeValsFrom_oob {a b nD d : Nat} (i j t : Nat) :
    ∀ (vals : List (List Char)) (k : Nat) (g : Grid4), hasShape g a b nD d → nD ≤ k →
      writeValsFrom g i j t k vals = g := by
  intro vals
  induction vals with
  | nil => intro k g hs hk; rfl
  | cons tok rest ih =>
    intro k g hs hk
    unfold writeValsFrom
    dsimp only
    by_cases hb : trimChars tok = []
    · rw [if_pos hb]
      exact ih (k + 1) g hs (by omega)
    · rw [if_neg hb]
      cases hp : parseTok tok with
      | none => exact ih (k + 1) g hs (by omega)
      | some v =>
        dsimp only
        rw [set4_depth_oob hs i j t v hk]
        exact ih (k + 1) g hs (by omega)

theorem writeValsFrom_take {a b nD d : Nat} (i j t : Nat) :
    ∀ (vals : List (List Char)) (k : Nat) (g : Grid4), hasShape g a b nD d →
      writeValsFrom g i j t k vals = writeValsFrom g i j t k (vals.take (nD - k)) := by
  intro vals
  induction vals with
  | nil => intro k g hs; rw [List.take_nil]
  | cons tok rest ih =>
    intro k g hs
    by_cases hk : k < nD
    · have harith : nD - k = (nD - (k + 1)) + 1 := by omega
      rw [harith, List.take_succ_cons]
      unfold writeValsFrom
      dsimp only
      by_cases hb : trimChars tok = []
      · rw [if_pos hb]
        exact ih (k + 1) g hs
      · rw [if_neg hb]
        cases hp : parseTok tok with
        | none => exact ih (k + 1) g hs
        | some v => exact ih (k + 1) _ (hasShape_set4 _ _ _ _ _ hs)
    · have h0 : nD - k = 0 := by omega
      rw [h0, List.take_zero]
      rw [writeValsFrom_oob i j t (tok :: rest) k g hs (by omega)]
      rfl

theorem writeValsFrom_depth_lt (i j t : Nat) :
    ∀ (vals : List (List Char)) (k0 : Nat) (g : Grid4) {c : Nat}, c < k0 →
      ∀ a b d, get4 (writeValsFrom g i j t k0 vals) a b c d = get4 g a b c d := by
  intro vals
  induction vals with
  | nil => intro k0 g c hc a b d; rfl
  | cons tok rest ih =>
    intro k0 g c hc a b d
    unfold writeValsFrom
    dsimp only
    by_cases hb : trimChars tok = []
    · rw [if_pos hb]
      exact ih (k0 + 1) g (by omega) a b d
    · rw [if_neg hb]
      cases hp : parseTok tok with
      | none => exact ih (k0 + 1) g (by omega) a b d
      | some v =>
        rw [ih (k0 + 1) _ (by omega) a b d]
        exact get4_set4_ne_k g i j t v a b d (by omega)

theorem writeValsFrom_written (i j t : Nat) :
    ∀ (vals : List (List Char)) (k0 : Nat) (g : Grid4) (n : Nat) (tok : List Char) (v : PFloat),
      nth vals n = some tok → trimChars tok ≠ [] → parseTok tok = some v →
      get4 (writeValsFrom g i j t k0 vals) i j (k0 + n) t
        = (get4 g i j (k0 + n) t).map (fun _ => some v) := by
  intro vals
  induction vals with
  | nil => intro k0 g n tok v htok; cases htok
  | cons tok0 rest ih =>
    intro k0 g n tok v htok hblank hparse
    cases n with
    | zero =>
      injection htok with htok0
      subst htok0
      rw [Nat.add_zero]
      unfold writeValsFrom
      dsimp only
      rw [if_neg hblank, hparse]
      dsimp only
      rw [writeValsFrom_depth_lt i j t rest (k0 + 1) _ (by omega) i j t]
      exact get4_set4_self g i j k0 t v
    | succ n' =>
      have harith : k0 + (n' + 1) = (k0 + 1) + n' := by omega
      rw [harith]
      unfold writeValsFrom
      dsimp only
      by_cases hb : trimChars tok0 = []
      · rw [if_pos hb]
        exact ih (k0 + 1) g n' tok v htok hblank hparse
      · rw [if_neg hb]
        cases hp : parseTok tok0 with
        | none => exact ih (k0 + 1) g n' tok v htok hblank hparse
        | some v0 =>
          rw [ih (k0 + 1) (set4 g i j k0 t v0) n' tok v htok hblank hparse]
          have hne : (k0 + 1) + n' ≠ k0 := by omega
          rw [get4_set4_ne_k g i j t v0 i j t hne]

/-- C10: a pass-2 value list with more fields than there are depth levels
does not make the write loop fail: the result is the same as if the list
were truncated to the number of depth levels (every field at depth index
k ≥ nDepth is silently ignored, the caught `IndexError` being a no-op
write), and every non-blank parseable field at depth index k < nDepth is
written normally into its own cell. -/
theorem C10_extra_depth_fields {g : Grid4} {a b d nD : Nat} (i j t : Nat)
    (vals : List (List Char)) (hshape : hasShape g a b nD d) (hmore : nD < vals.length) :
    writeVals g i j t vals = writeVals g i j t (vals.take nD) ∧
    ∀ k tok v, nth vals k = some tok → k < nD → trimChars tok ≠ [] → parseTok tok = some v →
      get4 (writeVals g i j t vals) i j k t = (get4 g i j k t).map (fun _ => some v) := by
  constructor
  · unfold writeVals
    have htake := writeValsFrom_take i j t vals 0 g hshape
    rw [Nat.sub_zero] at htake
    exact htake
  · intro k tok v htok hk hblank hparse
    unfold writeVals
    have hw := writeValsFrom_written i j t vals 0 g k tok v htok hblank hparse
    rw [Nat.zero_add] at hw
    exact hw

theorem C10_extra_depth_fields_witness :
    (writeVals (mkGrid 1 1 1 1) 0 0 0 ["5.5".toList, "7".toList]
       = writeVals (mkGrid 1 1 1 1) 0 0 0 (["5.5".toList, "7".toList].take 1)) ∧
    ∀ k tok v, nth ["5.5".toList, "7".toList] k = some tok → k < 1 → trimChars tok ≠ [] →
      parseTok tok = some v →
      get4 (writeVals (mkGrid 1 1 1 1) 0 0 0 ["5.5".toList, "7".toList]) 0 0 k 0
        = (get4 (mkGrid 1 1 1 1) 0 0 k 0).map (fun _ => some v) :=
  @C10_extra_depth_fields (mkGrid 1 1 1 1) 1 1 1 1 0 0 0 ["5.5".toList, "7".toList]
    (by decide) (by decide)
